import Mathlib

/-!
Verification of the command-routing and per-user OAuth credential engine of the
Mattermost Zendesk plugin (`server/command.go`, `server/plugin.go`), as a shallow
embedding in Lean 4.

Modelling conventions:
* Go's `map[string]string` field `Plugin.oauthAccessTokenMap` is modelled by an
  association list `TokenMap`; `insertToken` is map assignment (overwrite or add)
  and `eraseToken` is `delete`.
* External collaborators (the zendesk client library, the Mattermost API) are cut
  at their call sites: a handler outcome constructor records exactly which external
  call would be made, with which arguments, or which ephemeral message is posted.
* A Go `nil`-pointer dereference or out-of-range index (a runtime panic) is
  modelled by an explicit `none` / `panicked` outcome.
-/

namespace ZendeskPlugin

/-! ## Token map: the `oauthAccessTokenMap map[string]string` field -/

/-- Association-list model of Go's `map[string]string`. -/
abbrev TokenMap := List (String × String)

/-- Map read: `token, ok := m[k]` (Go map indexing with comma-ok). -/
def lookupToken : TokenMap → String → Option String
  | [], _ => none
  | (k1, v1) :: rest, k => if k1 = k then some v1 else lookupToken rest k

/-- Map write: `m[k] = v` (overwrites an existing entry, otherwise adds one). -/
def insertToken : TokenMap → String → String → TokenMap
  | [], k, v => [(k, v)]
  | (k1, v1) :: rest, k, v =>
      if k1 = k then (k, v) :: rest else (k1, v1) :: insertToken rest k v

/-- Map delete: `delete(m, k)`. -/
def eraseToken : TokenMap → String → TokenMap
  | [], _ => []
  | (k1, v1) :: rest, k =>
      if k1 = k then eraseToken rest k else (k1, v1) :: eraseToken rest k

theorem lookupToken_insert_self (m : TokenMap) (k v : String) :
    lookupToken (insertToken m k v) k = some v := by
  induction m with
  | nil => simp [insertToken, lookupToken]
  | cons hd tl ih =>
      obtain ⟨k1, v1⟩ := hd
      by_cases h : k1 = k
      · simp [insertToken, h, lookupToken]
      · simp [insertToken, h, lookupToken, ih]

theorem lookupToken_insert_ne (m : TokenMap) (k v k2 : String) (h : k2 ≠ k) :
    lookupToken (insertToken m k v) k2 = lookupToken m k2 := by
  induction m with
  | nil => simp [insertToken, lookupToken, Ne.symm h]
  | cons hd tl ih =>
      obtain ⟨k1, v1⟩ := hd
      by_cases h1 : k1 = k
      · subst h1
        simp [insertToken, lookupToken, Ne.symm h]
      · simp only [insertToken, if_neg h1, lookupToken]
        by_cases h2 : k1 = k2 <;> simp [h2, ih]

theorem lookupToken_erase_self (m : TokenMap) (k : String) :
    lookupToken (eraseToken m k) k = none := by
  induction m with
  | nil => simp [eraseToken, lookupToken]
  | cons hd tl ih =>
      obtain ⟨k1, v1⟩ := hd
      by_cases h : k1 = k
      · simp [eraseToken, h, ih]
      · simp [eraseToken, h, lookupToken, ih]

theorem lookupToken_erase_ne (m : TokenMap) (k k2 : String) (h : k2 ≠ k) :
    lookupToken (eraseToken m k) k2 = lookupToken m k2 := by
  induction m with
  | nil => simp [eraseToken]
  | cons hd tl ih =>
      obtain ⟨k1, v1⟩ := hd
      by_cases h1 : k1 = k
      · subst h1
        simp [eraseToken, lookupToken, Ne.symm h, ih]
      · simp only [eraseToken, if_neg h1, lookupToken]
        by_cases h2 : k1 = k2 <;> simp [h2, ih]

/-! ## Command router: `CommandHandler.Handle` and the registered verb table -/

/-- The keys of the registered verb table `zendeskCommandHandler.handlers`
(`command.go` lines 36-49); every registered handler is non-nil, so routing only
needs key membership. -/
def zendeskVerbKeys : List String :=
  ["connect", "disconnect", "status", "latest/private", "latest/public",
   "update/private", "update/public", "details", "help"]

/-- Embedding of `strings.Join(args[:n], "/")` restricted to the separator the
router uses. -/
def joinVerb : List String → String
  | [] => ""
  | [a] => a
  | a :: rest => a ++ "/" ++ joinVerb rest

/-- Result of `CommandHandler.Handle`: either a table handler fires with the
remaining tokens, or the default handler receives the full argument list. -/
inductive RouteResult where
  | dispatch (key : String) (rest : List String)
  | useDefault (args : List String)
deriving DecidableEq, Repr

/-- The countdown loop body of `Handle` (`command.go` lines 73-78): try the join
of the first `n` tokens, then `n - 1`, ..., down to `1`. -/
def verbMatchFrom (table : List String) (args : List String) : Nat → Option (String × List String)
  | 0 => none
  | n + 1 =>
      if joinVerb (args.take (n + 1)) ∈ table then
        some (joinVerb (args.take (n + 1)), args.drop (n + 1))
      else verbMatchFrom table args n

/-- Embedding of `CommandHandler.Handle` (`command.go` lines 72-80). -/
def handleRoute (table : List String) (args : List String) : RouteResult :=
  match verbMatchFrom table args args.length with
  | some (key, rest) => RouteResult.dispatch key rest
  | none => RouteResult.useDefault args

theorem verbMatchFrom_eq_none (table : List String) (args : List String) (n : Nat)
    (h : ∀ m, 1 ≤ m → m ≤ n → joinVerb (args.take m) ∉ table) :
    verbMatchFrom table args n = none := by
  induction n with
  | zero => rfl
  | succ n ih =>
      have hn : joinVerb (args.take (n + 1)) ∉ table :=
        h (n + 1) (by omega) (by omega)
      simp only [verbMatchFrom, if_neg hn]
      exact ih fun m h1 h2 => h m h1 (by omega)

theorem verbMatchFrom_eq_some (table : List String) (args : List String) (n N : Nat)
    (hN1 : 1 ≤ N) (hNn : N ≤ n)
    (hmem : joinVerb (args.take N) ∈ table)
    (hmax : ∀ m, N < m → m ≤ n → joinVerb (args.take m) ∉ table) :
    verbMatchFrom table args n = some (joinVerb (args.take N), args.drop N) := by
  induction n with
  | zero => omega
  | succ n ih =>
      by_cases hhit : joinVerb (args.take (n + 1)) ∈ table
      · have hEq : N = n + 1 := by
          by_contra hne
          exact hmax (n + 1) (by omega) (by omega) hhit
        subst hEq
        simp [verbMatchFrom, if_pos hhit]
      · have hNle : N ≤ n := by
          rcases Nat.lt_or_ge N (n + 1) with h | h
          · omega
          · exact absurd hmem (by
              have : N = n + 1 := by omega
              rw [this]; exact hhit)
        simp only [verbMatchFrom, if_neg hhit]
        exact ih hNle fun m h1 h2 => hmax m h1 (by omega)

/-- C1: for every registered verb table and argument token sequence, `Handle`
tries prefixes from the longest (all tokens) down to length 1, joining the first
`n` tokens with "/" and looking them up; it dispatches the first hit with the
remaining tokens, never matching a shorter prefix while a longer one is in the
table, and when no prefix of any length matches it invokes the default handler
with the full unconsumed argument list. -/
theorem handle_longest_prefix_routing (table : List String) (args : List String) :
    ((∀ m, 1 ≤ m → m ≤ args.length → joinVerb (args.take m) ∉ table) →
      handleRoute table args = RouteResult.useDefault args)
    ∧
    (∀ n, 1 ≤ n → n ≤ args.length →
      joinVerb (args.take n) ∈ table →
      (∀ m, n < m → m ≤ args.length → joinVerb (args.take m) ∉ table) →
      handleRoute table args
        = RouteResult.dispatch (joinVerb (args.take n)) (args.drop n)) := by
  constructor
  · intro h
    unfold handleRoute
    rw [verbMatchFrom_eq_none table args args.length h]
  · intro n h1 h2 hmem hmax
    unfold handleRoute
    rw [verbMatchFrom_eq_some table args args.length n h1 h2 hmem hmax]

/-- Witness for C1: with a table containing both "status" and "latest/private",
the token list ["latest", "private", "7"] dispatches on the two-token verb with
["7"] left over. -/
theorem handle_longest_prefix_routing_witness :
    handleRoute ["status", "latest/private"] ["latest", "private", "7"]
      = RouteResult.dispatch
          (joinVerb (List.take 2 ["latest", "private", "7"]))
          (List.drop 2 ["latest", "private", "7"]) :=
  (handle_longest_prefix_routing ["status", "latest/private"]
      ["latest", "private", "7"]).2 2 (by decide) (by decide) (by decide)
    (by
      intro m hm1 hm2
      have hlen : (["latest", "private", "7"] : List String).length = 3 := rfl
      rw [hlen] at hm2
      have hm3 : m = 3 := by omega
      subst hm3
      decide)

/-! ## Top-level command entry point: `ExecuteCommand` (`command.go` lines 63-69) -/

/-- Go's `unicode.IsSpace` over the Latin-1 range (the characters
`strings.Fields` splits on; code points above Latin-1 are outside the command
alphabet used here). -/
def goIsSpace (c : Char) : Bool :=
  c = ' ' || c = '\t' || c = '\n' || c = '\x0b' || c = '\x0c' || c = '\r' ||
  c = '\u0085' || c = '\u00A0'

/-- Accumulator pass of `strings.Fields`: scan the characters, emitting each
maximal run of non-space characters as one token. `acc` holds the current run
reversed. -/
def splitFieldsAux : List Char → List Char → List String
  | [], acc => if acc = [] then [] else [String.mk acc.reverse]
  | c :: cs, acc =>
      if goIsSpace c then
        (if acc = [] then [] else [String.mk acc.reverse]) ++ splitFieldsAux cs []
      else splitFieldsAux cs (c :: acc)

/-- Embedding of `strings.Fields(commandArgs.Command)`. -/
def goFields (s : String) : List String := splitFieldsAux s.data []

/-- The `helpTextHeader` constant (`command.go` line 15). -/
def helpTextHeader : String := "###### Mattermost Zendesk Plugin - Slash Command Help\n"

/-- The `commonHelpText` constant (`command.go` lines 17-25). -/
def commonHelpText : String :=
  "\n* `/zendesk status <case-number>` - Retrieve the current status of a case\n" ++
  "* `/zendesk details <case-number>` - Return details of the case\n" ++
  "* `/zendesk latest private <case-number>` - Retrieve the last internal comment posted to a case\n" ++
  "* `/zendesk latest public <case-number>` - Retrieve the last public comment posted to a case\n" ++
  "* `/zendesk update private <case-number>` - Post an internal comment to a case and notify agents\n" ++
  "* `/zendesk update public <case-number>` - Post a public comment to a case and notify agents\n" ++
  "* `/zendesk connect` - Connect to Zendesk\n" ++
  "* `/zendesk disconnect` - Disconnect from Zendesk\n" ++
  "* `/zendesk help` - Show Help\n"

/-- The text posted by `Plugin.help` (`command.go` lines 86-92), which also
returns an empty `CommandResponse`. -/
def helpText : String := helpTextHeader ++ commonHelpText

/-- User-visible result of the top-level dispatch: `rendered msg` means an
ephemeral post of `msg` followed by an empty `CommandResponse`; `dispatchedTo`
means a registered table handler was invoked with the remaining tokens. -/
inductive CmdRender where
  | rendered (message : String)
  | dispatchedTo (key : String) (rest : List String)
deriving DecidableEq, Repr

/-- Embedding of `Plugin.ExecuteCommand` (`command.go` lines 63-69): split the
raw command into fields; if there are none or the first is not "/zendesk",
render help; otherwise route the remaining tokens. The default handler
`executeZendeskDefault` (lines 393-395) is `p.help`, so the `useDefault` branch
renders the help text. The second component is the returned `*model.AppError`,
which is literally `nil` on every path. -/
def executeCommandModel (command : String) : CmdRender × Option String :=
  match goFields command with
  | [] => (CmdRender.rendered helpText, none)
  | a0 :: rest =>
    if a0 = "/zendesk" then
      match handleRoute zendeskVerbKeys rest with
      | RouteResult.dispatch key hargs => (CmdRender.dispatchedTo key hargs, none)
      | RouteResult.useDefault _ => (CmdRender.rendered helpText, none)
    else (CmdRender.rendered helpText, none)

/-- C7: every raw command line whose first whitespace-separated token differs
from "/zendesk" (including the empty line), and every command line whose verb
tokens match no table entry, yields the help response with a nil application
error — never an error result. -/
theorem execute_command_unrecognized_help (command : String) :
    ((goFields command).head? ≠ some "/zendesk" →
      executeCommandModel command = (CmdRender.rendered helpText, none))
    ∧
    (∀ rest, goFields command = "/zendesk" :: rest →
      (∀ n, 1 ≤ n → n ≤ rest.length → joinVerb (rest.take n) ∉ zendeskVerbKeys) →
      executeCommandModel command = (CmdRender.rendered helpText, none)) := by
  constructor
  · intro h
    cases hf : goFields command with
    | nil => simp [executeCommandModel, hf]
    | cons a0 rest =>
        have ha : ¬ a0 = "/zendesk" := by
          intro hEq
          rw [hf, hEq] at h
          exact h rfl
        simp [executeCommandModel, hf, ha]
  · intro rest hf hnone
    have hdef : handleRoute zendeskVerbKeys rest = RouteResult.useDefault rest := by
      unfold handleRoute
      rw [verbMatchFrom_eq_none zendeskVerbKeys rest rest.length hnone]
    simp [executeCommandModel, hf, hdef]

/-- Witness for C7: a line without the trigger and a line with an unknown verb
both render help with a nil error. -/
theorem execute_command_unrecognized_help_witness :
    executeCommandModel "hello world" = (CmdRender.rendered helpText, none)
    ∧ executeCommandModel "/zendesk frobnicate" = (CmdRender.rendered helpText, none) := by
  constructor
  · exact (execute_command_unrecognized_help "hello world").1 (by decide)
  · exact (execute_command_unrecognized_help "/zendesk frobnicate").2 ["frobnicate"]
      (by decide)
      (by
        intro n h1 h2
        have hlen : (["frobnicate"] : List String).length = 1 := rfl
        rw [hlen] at h2
        have hn : n = 1 := by omega
        subst hn
        decide)

/-! ## Client-host derivation from the configured service URL

Every connected code path (`executeStatus`, `executeDetails`,
`executeLatestPrivate`, `executeLatestPublic`, `executeUpdatePrivate`,
`executeUpdatePublic`, `OnActivate`) runs the same two lines:
`u, _ := url.Parse(p.getConfiguration().ZendeskURL)` (the parse error is
discarded) followed by `clientHost := strings.Split(u.Host, ".")[0]`. -/

/-- Scan for the first "://" and return the characters after it, if any. -/
def afterSchemeSep : List Char → Option (List Char)
  | [] => none
  | ':' :: '/' :: '/' :: rest => some rest
  | _ :: rest => afterSchemeSep rest

/-- Model of `url.Parse(s).Host` for the configured-URL shapes at issue: with a
"scheme://" the host is everything up to the first '/', '?' or '#'; without one,
Go parses the entire input as a path and `u.Host` is the empty string.
(Userinfo/port splitting and `url.Parse`'s error cases are outside the shapes
the configuration uses; note the call sites discard the parse error anyway.) -/
def hostOf (s : String) : String :=
  match afterSchemeSep s.data with
  | some rest =>
      String.mk (rest.takeWhile (fun c => c ≠ '/' && c ≠ '?' && c ≠ '#'))
  | none => ""

/-- `strings.Split(u.Host, ".")[0]`: the hostname's leading label, i.e. the
characters of the host before the first '.'. -/
def clientHost (zurl : String) : String :=
  String.mk ((hostOf zurl).data.takeWhile (fun c => c ≠ '.'))

/-! ## Credential resolution (the per-user token branch shared by the handlers) -/

/-- Outcome of the `if token, ok := p.oauthAccessTokenMap[userId]` branch: either
a zendesk client handle is built via `zendesk.NewClientWithOAuthToken(clientHost,
token)`, or the handler posts "Please connect to Zendesk" and returns an empty
`CommandResponse`. -/
inductive Resolution where
  | notConnected
  | client (host : String) (token : String)
deriving DecidableEq, Repr

/-- Embedding of the credential-resolution block repeated in each connected
handler (for example `command.go` lines 136-151). -/
def resolveCredential (m : TokenMap) (userId zurl : String) : Resolution :=
  match lookupToken m userId with
  | some token => Resolution.client (clientHost zurl) token
  | none => Resolution.notConnected

/-! ## `strconv.ParseInt(s, 10, 64)` -/

def digitValue (c : Char) : Nat := c.toNat - 48

/-- Value of a non-empty all-digit run; `none` on an empty or non-digit run. -/
def decimalDigits : List Char → Option Nat
  | [] => none
  | cs =>
      if cs.all Char.isDigit then
        some (cs.foldl (fun a c => a * 10 + digitValue c) 0)
      else none

def int64Max : Nat := 2 ^ 63 - 1

/-- Embedding of `strconv.ParseInt(s, 10, 64)`: optional sign, a non-empty digit
run, and an int64 range check; `none` models a non-nil error. -/
def goParseInt (s : String) : Option Int :=
  match s.data with
  | '+' :: rest =>
      (decimalDigits rest).bind fun n =>
        if n ≤ int64Max then some (Int.ofNat n) else none
  | '-' :: rest =>
      (decimalDigits rest).bind fun n =>
        if n ≤ 2 ^ 63 then some (-(Int.ofNat n)) else none
  | cs =>
      (decimalDigits cs).bind fun n =>
        if n ≤ int64Max then some (Int.ofNat n) else none

/-! ## `executeStatus` up to the external call (`command.go` lines 123-156) -/

/-- Outcome of `executeStatus`: `usage` posts the case-number instruction,
`parseErrorMsg` posts `err.Error()` from `ParseInt`, `pleaseConnect` posts
"Please connect to Zendesk" and returns without any external call, and
`externalShowTicket` records that `zendesk.NewClientWithOAuthToken(host, token)`
and `client.ShowTicket(ticketId)` would be invoked. -/
inductive StatusOutcome where
  | usage
  | parseErrorMsg (arg : String)
  | pleaseConnect
  | externalShowTicket (host : String) (token : String) (ticketId : Int)
deriving DecidableEq, Repr

/-- Embedding of `executeStatus` up to its external ticket fetch. -/
def executeStatusModel (m : TokenMap) (zurl userId : String) (args : List String) :
    StatusOutcome :=
  match args with
  | [a0] =>
    match goParseInt a0 with
    | none => StatusOutcome.parseErrorMsg a0
    | some tid =>
      match resolveCredential m userId zurl with
      | Resolution.client host token => StatusOutcome.externalShowTicket host token tid
      | Resolution.notConnected => StatusOutcome.pleaseConnect
  | _ => StatusOutcome.usage

/-! ## `executeDisconnect` (`command.go` lines 108-120) -/

/-- Outcome of `executeDisconnect`: `helpOut` renders help (non-empty argument
list), `disconnected` posts "Disconnected", `notConnectedMsg` posts the
"You are not connected" instruction. -/
inductive DisconnectOutcome where
  | helpOut
  | disconnected
  | notConnectedMsg
deriving DecidableEq, Repr

/-- Embedding of `executeDisconnect`; the second component is the plugin's
`oauthAccessTokenMap` after the call (the only plugin field the Go function
writes — the verb table and configuration are untouched by its body). -/
def executeDisconnectModel (m : TokenMap) (userId : String) (args : List String) :
    DisconnectOutcome × TokenMap :=
  match args with
  | _ :: _ => (DisconnectOutcome.helpOut, m)
  | [] =>
    match lookupToken m userId with
    | some _ => (DisconnectOutcome.disconnected, eraseToken m userId)
    | none => (DisconnectOutcome.notConnectedMsg, m)

/-! ## `httpOAuthRedirect` (`plugin.go` lines 128-206) -/

/-- The data of one callback request: the result of `r.ParseForm()`, the value of
`r.FormValue("code")`, and the `Mattermost-User-ID` header (`none` when absent;
Go's `Header.Get` then yields `""`). -/
structure OAuthCallbackRequest where
  parseFormError : Option String
  code : String
  userIdHeader : Option String
deriving DecidableEq, Repr

/-- Result of decoding the token-endpoint response body into
`OAuthAccessResponse`. -/
inductive DecodeResult where
  | failed (msg : String)
  | ok (accessToken : String)
deriving DecidableEq, Repr

/-- Result of `httpClient.Do(req)`: a transport error, or a response with its
status code, the decode result of its body, and the raw body text (read when the
status check fails). -/
inductive TokenExchangeResult where
  | transportError (msg : String)
  | response (statusCode : Nat) (decoded : DecodeResult) (rawBody : String)
deriving DecidableEq, Repr

/-- The remaining fallible steps before the exchange: `json.Marshal` of the
request body and `http.NewRequest` (each `none` on success). -/
structure TokenRequestEnv where
  marshalError : Option String
  newRequestError : Option String
  exchange : TokenExchangeResult
deriving DecidableEq, Repr

/-- Embedding of `httpOAuthRedirect`. Returns `((status, body), newTokenMap)`
where `status` is the int handed back to `ServeHTTP` and `body` the text written
with `fmt.Fprint`. Every error path responds 200 with an explanatory body and
leaves the map alone; the success path stores the token under the literal
header value (empty string when the header is absent). -/
def httpOAuthRedirect (m : TokenMap) (req : OAuthCallbackRequest)
    (env : TokenRequestEnv) : (Nat × String) × TokenMap :=
  match req.parseFormError with
  | some e => ((200, "Something went wrong: " ++ e), m)
  | none =>
    match env.marshalError with
    | some e => ((200, "Something went wrong: " ++ e), m)
    | none =>
      match env.newRequestError with
      | some e => ((200, "Something went wrong: " ++ e), m)
      | none =>
        match env.exchange with
        | TokenExchangeResult.transportError e =>
            ((200, "Something went wrong: " ++ e), m)
        | TokenExchangeResult.response statusCode decoded rawBody =>
            if statusCode < 200 ∨ 400 ≤ statusCode then
              ((200, "Could not obtain OAuth access token from zendesk: " ++ rawBody), m)
            else
              match decoded with
              | DecodeResult.failed e => ((200, "Something went wrong: " ++ e), m)
              | DecodeResult.ok token =>
                  ((200, "Successfully connected mattermost account "
                      ++ req.userIdHeader.getD "" ++ " "
                      ++ " with zendesk account: " ++ token),
                   insertToken m (req.userIdHeader.getD "") token)

theorem httpOAuthRedirect_success_spec
    (m : TokenMap) (req : OAuthCallbackRequest) (env : TokenRequestEnv)
    (s : Nat) (tok rawBody : String)
    (hpf : req.parseFormError = none)
    (hme : env.marshalError = none)
    (hnr : env.newRequestError = none)
    (hex : env.exchange = TokenExchangeResult.response s (DecodeResult.ok tok) rawBody)
    (hs1 : 200 ≤ s) (hs2 : s < 400) :
    httpOAuthRedirect m req env
      = ((200, "Successfully connected mattermost account "
            ++ req.userIdHeader.getD "" ++ " "
            ++ " with zendesk account: " ++ tok),
         insertToken m (req.userIdHeader.getD "") tok) := by
  have hcond : ¬ (s < 200 ∨ 400 ≤ s) := by omega
  unfold httpOAuthRedirect
  simp only [hpf, hme, hnr, hex]
  rw [if_neg hcond]

theorem httpOAuthRedirect_transport_spec
    (m : TokenMap) (req : OAuthCallbackRequest) (env : TokenRequestEnv)
    (e : String)
    (hpf : req.parseFormError = none)
    (hme : env.marshalError = none)
    (hnr : env.newRequestError = none)
    (hex : env.exchange = TokenExchangeResult.transportError e) :
    httpOAuthRedirect m req env = ((200, "Something went wrong: " ++ e), m) := by
  unfold httpOAuthRedirect
  simp only [hpf, hme, hnr, hex]

theorem httpOAuthRedirect_badstatus_spec
    (m : TokenMap) (req : OAuthCallbackRequest) (env : TokenRequestEnv)
    (s : Nat) (d : DecodeResult) (b : String)
    (hpf : req.parseFormError = none)
    (hme : env.marshalError = none)
    (hnr : env.newRequestError = none)
    (hex : env.exchange = TokenExchangeResult.response s d b)
    (hs : s < 200 ∨ 400 ≤ s) :
    httpOAuthRedirect m req env
      = ((200, "Could not obtain OAuth access token from zendesk: " ++ b), m) := by
  unfold httpOAuthRedirect
  simp only [hpf, hme, hnr, hex]
  rw [if_pos hs]

theorem httpOAuthRedirect_decodefail_spec
    (m : TokenMap) (req : OAuthCallbackRequest) (env : TokenRequestEnv)
    (s : Nat) (e b : String)
    (hpf : req.parseFormError = none)
    (hme : env.marshalError = none)
    (hnr : env.newRequestError = none)
    (hex : env.exchange = TokenExchangeResult.response s (DecodeResult.failed e) b)
    (hs1 : 200 ≤ s) (hs2 : s < 400) :
    httpOAuthRedirect m req env = ((200, "Something went wrong: " ++ e), m) := by
  have hcond : ¬ (s < 200 ∨ 400 ≤ s) := by omega
  unfold httpOAuthRedirect
  simp only [hpf, hme, hnr, hex]
  rw [if_neg hcond]

/-- C2 counterexample: a 302 response from the token endpoint is not a 2xx
status, yet when its body decodes, `httpOAuthRedirect` stores the token — the
guard in the code is `StatusCode < 200 || StatusCode >= 400`, so 3xx statuses
fall through to the decode and the map mutates. -/
theorem oauth_non2xx_can_mutate_store :
    ¬ (200 ≤ 302 ∧ 302 < 300)
    ∧ (httpOAuthRedirect []
          ⟨none, "authcode", some "user1"⟩
          ⟨none, none, TokenExchangeResult.response 302 (DecodeResult.ok "tok302") ""⟩).2
        ≠ ([] : TokenMap) := by decide

/-- C2 (amended): for every callback in which the exchange was attempted and
failed in the sense the code tests — a transport error, a status below 200 or at
least 400, or a decode failure on a status in [200, 400) — `httpOAuthRedirect`
leaves the token map unchanged and responds with HTTP 200 carrying a
human-readable error body, never a 5xx. -/
theorem oauth_failed_exchange_preserves_map
    (m : TokenMap) (req : OAuthCallbackRequest) (env : TokenRequestEnv)
    (hpf : req.parseFormError = none)
    (hme : env.marshalError = none)
    (hnr : env.newRequestError = none)
    (hfail :
      (∃ e, env.exchange = TokenExchangeResult.transportError e)
      ∨ (∃ s d b, env.exchange = TokenExchangeResult.response s d b
            ∧ (s < 200 ∨ 400 ≤ s))
      ∨ (∃ s e b, env.exchange = TokenExchangeResult.response s (DecodeResult.failed e) b
            ∧ 200 ≤ s ∧ s < 400)) :
    (httpOAuthRedirect m req env).2 = m
    ∧ (httpOAuthRedirect m req env).1.1 = 200
    ∧ ((∃ e, (httpOAuthRedirect m req env).1.2 = "Something went wrong: " ++ e)
       ∨ (∃ b, (httpOAuthRedirect m req env).1.2
            = "Could not obtain OAuth access token from zendesk: " ++ b)) := by
  rcases hfail with ⟨e, hex⟩ | ⟨s, d, b, hex, hs⟩ | ⟨s, e, b, hex, hs1, hs2⟩
  · rw [httpOAuthRedirect_transport_spec m req env e hpf hme hnr hex]
    exact ⟨rfl, rfl, Or.inl ⟨e, rfl⟩⟩
  · rw [httpOAuthRedirect_badstatus_spec m req env s d b hpf hme hnr hex hs]
    exact ⟨rfl, rfl, Or.inr ⟨b, rfl⟩⟩
  · rw [httpOAuthRedirect_decodefail_spec m req env s e b hpf hme hnr hex hs1 hs2]
    exact ⟨rfl, rfl, Or.inl ⟨e, rfl⟩⟩

/-- Witness for C2 (amended): a transport error leaves a concrete map unchanged
and yields status 200. -/
theorem oauth_failed_exchange_preserves_map_witness :
    (httpOAuthRedirect [("u1", "t1")] ⟨none, "c", some "u1"⟩
        ⟨none, none, TokenExchangeResult.transportError "connection refused"⟩).2
      = [("u1", "t1")]
    ∧ (httpOAuthRedirect [("u1", "t1")] ⟨none, "c", some "u1"⟩
        ⟨none, none, TokenExchangeResult.transportError "connection refused"⟩).1.1
      = 200 := by
  have h := oauth_failed_exchange_preserves_map [("u1", "t1")] ⟨none, "c", some "u1"⟩
      ⟨none, none, TokenExchangeResult.transportError "connection refused"⟩
      rfl rfl rfl (Or.inl ⟨"connection refused", rfl⟩)
  exact ⟨h.1, h.2.1⟩

/-- C9: whenever the server-to-server exchange succeeds, `httpOAuthRedirect`
unconditionally performs exactly one map write, keyed by the literal value of
the Mattermost-User-ID header; when the header is absent the token is stored
under the empty-string key rather than the request being rejected — no identity
validation guards the write. -/
theorem oauth_success_inserts_literal_header_key
    (m : TokenMap) (req : OAuthCallbackRequest) (env : TokenRequestEnv)
    (s : Nat) (tok rawBody : String)
    (hpf : req.parseFormError = none)
    (hme : env.marshalError = none)
    (hnr : env.newRequestError = none)
    (hex : env.exchange = TokenExchangeResult.response s (DecodeResult.ok tok) rawBody)
    (hs1 : 200 ≤ s) (hs2 : s < 400) :
    (httpOAuthRedirect m req env).2 = insertToken m (req.userIdHeader.getD "") tok
    ∧ (req.userIdHeader = none →
        (httpOAuthRedirect m req env).2 = insertToken m "" tok) := by
  have h := httpOAuthRedirect_success_spec m req env s tok rawBody hpf hme hnr hex hs1 hs2
  constructor
  · rw [h]
  · intro hnone
    rw [h, hnone]
    rfl

/-- Witness for C9: with the header absent, a successful exchange stores the
token under the empty-string key. -/
theorem oauth_success_inserts_literal_header_key_witness :
    (httpOAuthRedirect [("old", "t0")] ⟨none, "code1", none⟩
        ⟨none, none, TokenExchangeResult.response 200 (DecodeResult.ok "newtok") "raw"⟩).2
      = insertToken [("old", "t0")] "" "newtok" :=
  (oauth_success_inserts_literal_header_key [("old", "t0")] ⟨none, "code1", none⟩
      ⟨none, none, TokenExchangeResult.response 200 (DecodeResult.ok "newtok") "raw"⟩
      200 "newtok" "raw" rfl rfl rfl rfl (by decide) (by decide)).2 rfl

/-- C3: with an empty token map, credential resolution yields `notConnected`
and `executeStatus` posts "Please connect to Zendesk" without any external call;
after `httpOAuthRedirect` completes a successful exchange attributed to `u`
(header equal to `u`), resolution for `u` yields a client handle bound to
exactly the exchanged token; a subsequent disconnect by `u` restores resolution
for `u` to `notConnected`. -/
theorem credential_lifecycle
    (u zurl idStr : String) (tid : Int)
    (hparse : goParseInt idStr = some tid)
    (req : OAuthCallbackRequest) (env : TokenRequestEnv)
    (s : Nat) (tok rawBody : String)
    (hpf : req.parseFormError = none)
    (hme : env.marshalError = none)
    (hnr : env.newRequestError = none)
    (hhdr : req.userIdHeader = some u)
    (hex : env.exchange = TokenExchangeResult.response s (DecodeResult.ok tok) rawBody)
    (hs1 : 200 ≤ s) (hs2 : s < 400) :
    resolveCredential [] u zurl = Resolution.notConnected
    ∧ executeStatusModel [] zurl u [idStr] = StatusOutcome.pleaseConnect
    ∧ resolveCredential (httpOAuthRedirect [] req env).2 u zurl
        = Resolution.client (clientHost zurl) tok
    ∧ resolveCredential
        (executeDisconnectModel (httpOAuthRedirect [] req env).2 u []).2 u zurl
        = Resolution.notConnected := by
  have hmap := httpOAuthRedirect_success_spec [] req env s tok rawBody hpf hme hnr hex hs1 hs2
  refine ⟨rfl, ?_, ?_, ?_⟩
  · simp [executeStatusModel, hparse, resolveCredential, lookupToken]
  · rw [hmap]
    simp [hhdr, insertToken, resolveCredential, lookupToken]
  · rw [hmap]
    simp [hhdr, insertToken, executeDisconnectModel, lookupToken, eraseToken,
      resolveCredential]

/-- Witness for C3: the lifecycle at user "user1", service URL
"https://acme.zendesk.com", ticket 42 and token "tok42". -/
theorem credential_lifecycle_witness :
    resolveCredential [] "user1" "https://acme.zendesk.com" = Resolution.notConnected
    ∧ executeStatusModel [] "https://acme.zendesk.com" "user1" ["42"]
        = StatusOutcome.pleaseConnect
    ∧ resolveCredential
        (httpOAuthRedirect [] ⟨none, "c", some "user1"⟩
          ⟨none, none, TokenExchangeResult.response 200 (DecodeResult.ok "tok42") ""⟩).2
        "user1" "https://acme.zendesk.com"
        = Resolution.client "acme" "tok42"
    ∧ resolveCredential
        (executeDisconnectModel
          (httpOAuthRedirect [] ⟨none, "c", some "user1"⟩
            ⟨none, none, TokenExchangeResult.response 200 (DecodeResult.ok "tok42") ""⟩).2
          "user1" []).2
        "user1" "https://acme.zendesk.com"
        = Resolution.notConnected :=
  credential_lifecycle "user1" "https://acme.zendesk.com" "42" 42 (by decide)
    ⟨none, "c", some "user1"⟩
    ⟨none, none, TokenExchangeResult.response 200 (DecodeResult.ok "tok42") ""⟩
    200 "tok42" "" rfl rfl rfl rfl rfl (by decide) (by decide)

/-- C10: `executeDisconnect` removes at most the single entry keyed by the
invoking user's id — every other user's token mapping is unchanged, and when no
entry for the user exists it reports "not connected" without modifying
anything. (The Go function writes no plugin field other than
`oauthAccessTokenMap`; the verb table and configuration do not appear in its
body.) -/
theorem disconnect_frame (m : TokenMap) (u : String) (args : List String) :
    (∀ k, k ≠ u → lookupToken (executeDisconnectModel m u args).2 k = lookupToken m k)
    ∧ ((executeDisconnectModel m u args).2 = m
        ∨ (executeDisconnectModel m u args).2 = eraseToken m u)
    ∧ (args = [] → lookupToken m u = none →
        (executeDisconnectModel m u args).2 = m
        ∧ (executeDisconnectModel m u args).1 = DisconnectOutcome.notConnectedMsg) := by
  match args with
  | _ :: _ => exact ⟨fun k hk => rfl, Or.inl rfl, fun h => nomatch h⟩
  | [] =>
    cases hl : lookupToken m u with
    | some tok =>
        refine ⟨fun k hk => ?_, Or.inr ?_, fun _ hnone => ?_⟩
        · simp [executeDisconnectModel, hl, lookupToken_erase_ne m u k hk]
        · simp [executeDisconnectModel, hl]
        · exact Option.noConfusion hnone
    | none =>
        exact ⟨fun k hk => by simp [executeDisconnectModel, hl],
          Or.inl (by simp [executeDisconnectModel, hl]),
          fun _ _ => ⟨by simp [executeDisconnectModel, hl],
            by simp [executeDisconnectModel, hl]⟩⟩

/-- Witness for C10: disconnecting "alice" leaves "bob"'s token in place, and
disconnecting when not connected changes nothing and reports "not connected". -/
theorem disconnect_frame_witness :
    lookupToken (executeDisconnectModel [("alice", "t1"), ("bob", "t2")] "alice" []).2 "bob"
      = some "t2"
    ∧ (executeDisconnectModel [("bob", "t2")] "alice" []).2 = [("bob", "t2")]
    ∧ (executeDisconnectModel [("bob", "t2")] "alice" []).1
        = DisconnectOutcome.notConnectedMsg := by
  refine ⟨?_, ?_, ?_⟩
  · have h := (disconnect_frame [("alice", "t1"), ("bob", "t2")] "alice" []).1 "bob"
      (by decide)
    rw [h]
    decide
  · exact ((disconnect_frame [("bob", "t2")] "alice" []).2.2 rfl (by decide)).1
  · exact ((disconnect_frame [("bob", "t2")] "alice" []).2.2 rfl (by decide)).2

/-- C8 (behavior at the failing input): for a configured service URL without a
scheme, `url.Parse` puts the whole input in the path, `u.Host` is empty, the
derived leading label is the empty string, and the connected handlers silently
proceed to construct a client with that empty host — no configuration error is
propagated (indeed the parse error is discarded with `u, _ :=`). With a scheme
and extra path segments the derivation does succeed. -/
theorem scheme_less_url_silently_empty_host :
    hostOf "example.zendesk.com" = ""
    ∧ clientHost "example.zendesk.com" = ""
    ∧ resolveCredential [("user1", "tok")] "user1" "example.zendesk.com"
        = Resolution.client "" "tok"
    ∧ executeStatusModel [("user1", "tok")] "example.zendesk.com" "user1" ["42"]
        = StatusOutcome.externalShowTicket "" "tok" 42
    ∧ clientHost "https://example.zendesk.com/extra/path" = "example" := by decide

/-! ## List scanning helpers used by the comment-line extraction model -/

theorem dropWhile_length_le {α : Type} (p : α → Bool) (l : List α) :
    (l.dropWhile p).length ≤ l.length := by
  induction l with
  | nil => exact Nat.le_refl 0
  | cons a l ih =>
      cases h : p a with
      | false => simp [List.dropWhile, h]
      | true =>
          simp only [List.dropWhile, h]
          exact Nat.le_succ_of_le ih

theorem dropWhile_append_all {α : Type} (p : α → Bool) (xs ys : List α)
    (h : ∀ a ∈ xs, p a = true) :
    (xs ++ ys).dropWhile p = ys.dropWhile p := by
  induction xs with
  | nil => rfl
  | cons a xs ih =>
      have ha : p a = true := h a (List.mem_cons_self a xs)
      simp only [List.cons_append, List.dropWhile, ha]
      exact ih fun b hb => h b (List.mem_cons_of_mem a hb)

theorem dropWhile_cons_false {α : Type} (p : α → Bool) (a : α) (l : List α)
    (h : p a = false) : (a :: l).dropWhile p = a :: l := by
  simp [List.dropWhile, h]

theorem takeWhile_all {α : Type} (p : α → Bool) (l : List α)
    (h : ∀ a ∈ l, p a = true) : l.takeWhile p = l := by
  induction l with
  | nil => rfl
  | cons a l ih =>
      have ha : p a = true := h a (List.mem_cons_self a l)
      simp only [List.takeWhile, ha]
      rw [ih fun b hb => h b (List.mem_cons_of_mem a hb)]

theorem dropWhile_all {α : Type} (p : α → Bool) (l : List α)
    (h : ∀ a ∈ l, p a = true) : l.dropWhile p = [] := by
  induction l with
  | nil => rfl
  | cons a l ih =>
      have ha : p a = true := h a (List.mem_cons_self a l)
      simp only [List.dropWhile, ha]
      exact ih fun b hb => h b (List.mem_cons_of_mem a hb)

/-! ## `parseCommentLine` (`command.go` lines 411-416)

The two call sites pass the patterns `(\/zendesk\s*update\s*private\s*\d*)(.*)`
and `(\/zendesk\s*update\s*public\s*\d*)(.*)` to
`regexp.MustCompile(...).ReplaceAllString(command, "$2")`. Group 1 is a literal
"/zendesk", then greedy space runs (`\s` = `[\t\n\f\r ]` in RE2), the literals
"update" and the visibility word, a greedy space run and a greedy digit run;
group 2 `(.*)` is everything after, up to a newline or the end. No greedy piece
here ever needs backtracking: the construct after each `\s*` or `\d*` can never
match a character the repeated class accepts, so maximal munch is exact. -/

/-- Match a literal character sequence, returning the rest of the input. -/
def stripLit : List Char → List Char → Option (List Char)
  | [], cs => some cs
  | _ :: _, [] => none
  | p :: ps, c :: cs => if p = c then stripLit ps cs else none

theorem stripLit_append (p r : List Char) : stripLit p (p ++ r) = some r := by
  induction p with
  | nil => rfl
  | cons a ps ih => simp [stripLit, ih]

theorem stripLit_length (p : List Char) :
    ∀ cs r, stripLit p cs = some r → r.length + p.length = cs.length := by
  induction p with
  | nil =>
      intro cs r h
      simp only [stripLit, Option.some.injEq] at h
      subst h
      simp
  | cons a ps ih =>
      intro cs r h
      cases cs with
      | nil => exact absurd h (by simp [stripLit])
      | cons c cs2 =>
          by_cases hac : a = c
          · simp only [stripLit, if_pos hac] at h
            have := ih cs2 r h
            simp only [List.length_cons]
            omega
          · simp [stripLit, hac] at h

/-- RE2's `\s` character class: `[\t\n\f\r ]`. -/
def goRegexSpace (c : Char) : Bool :=
  c = '\t' || c = '\n' || c = '\x0c' || c = '\r' || c = ' '

/-- Anchored match of the group-1 pattern `\/zendesk\s*update\s*<vis>\s*\d*`
at the start of the input; returns the suffix where group 2 `(.*)` starts. -/
def matchUpdateCmd (vis : List Char) (cs : List Char) : Option (List Char) :=
  match stripLit "/zendesk".toList cs with
  | none => none
  | some cs1 =>
    match stripLit "update".toList (cs1.dropWhile goRegexSpace) with
    | none => none
    | some cs2 =>
      match stripLit vis (cs2.dropWhile goRegexSpace) with
      | none => none
      | some cs3 => some ((cs3.dropWhile goRegexSpace).dropWhile Char.isDigit)

theorem matchUpdateCmd_length (vis l suf : List Char)
    (h : matchUpdateCmd vis l = some suf) : suf.length < l.length := by
  unfold matchUpdateCmd at h
  cases h1 : stripLit "/zendesk".toList l with
  | none =>
      simp only [h1] at h
      exact Option.noConfusion h
  | some cs1 =>
      simp only [h1] at h
      cases h2 : stripLit "update".toList (cs1.dropWhile goRegexSpace) with
      | none =>
          simp only [h2] at h
          exact Option.noConfusion h
      | some cs2 =>
          simp only [h2] at h
          cases h3 : stripLit vis (cs2.dropWhile goRegexSpace) with
          | none =>
              simp only [h3] at h
              exact Option.noConfusion h
          | some cs3 =>
              simp only [h3, Option.some.injEq] at h
              have l1 := stripLit_length "/zendesk".toList l cs1 h1
              have l2 := stripLit_length "update".toList (cs1.dropWhile goRegexSpace) cs2 h2
              have l3 := stripLit_length vis (cs2.dropWhile goRegexSpace) cs3 h3
              have d1 := dropWhile_length_le goRegexSpace cs1
              have d2 := dropWhile_length_le goRegexSpace cs2
              have d3 := dropWhile_length_le goRegexSpace cs3
              have d4 := dropWhile_length_le Char.isDigit (cs3.dropWhile goRegexSpace)
              have hfin : suf.length ≤ (cs3.dropWhile goRegexSpace).length := h ▸ d4
              have h8 : ("/zendesk".toList).length = 8 := rfl
              have h6 : ("update".toList).length = 6 := rfl
              rw [h8] at l1
              rw [h6] at l2
              omega

/-- One `ReplaceAllString(command, "$2")` pass: at each position, if group 1
matches, the whole match (group 1 followed by group 2, which runs to the next
newline or the end) is replaced by group 2 and scanning resumes after it;
otherwise the character is kept and scanning moves on. `fuel` bounds the
recursion; every step consumes at least one input character
(`matchUpdateCmd_length`), so the initial value `input.length` never runs out. -/
def replaceUpdateFuel (vis : List Char) : Nat → List Char → List Char
  | 0, l => l
  | _ + 1, [] => []
  | fuel + 1, c :: cs =>
    match matchUpdateCmd vis (c :: cs) with
    | some suf =>
        suf.takeWhile (fun d => d ≠ '\n')
          ++ replaceUpdateFuel vis fuel (suf.dropWhile (fun d => d ≠ '\n'))
    | none => c :: replaceUpdateFuel vis fuel cs

def replaceUpdateAll (vis : List Char) (l : List Char) : List Char :=
  replaceUpdateFuel vis l.length l

/-- Embedding of `parseCommentLine` at the two patterns the update handlers
pass, parameterized by the visibility word ("private" or "public"). -/
def parseCommentLine (vis : String) (command : String) : String :=
  String.mk (replaceUpdateAll vis.toList command.data)

theorem replaceUpdateFuel_nil (vis : List Char) (fuel : Nat) :
    replaceUpdateFuel vis fuel [] = [] := by
  cases fuel <;> rfl

theorem replaceUpdate_single_line (vis l suf : List Char)
    (hm : matchUpdateCmd vis l = some suf)
    (hnl : ∀ c ∈ suf, c ≠ '\n') :
    replaceUpdateAll vis l = suf := by
  have hlt := matchUpdateCmd_length vis l suf hm
  cases l with
  | nil => exact absurd hlt (by simp)
  | cons c cs =>
      have ht : suf.takeWhile (fun d => d ≠ '\n') = suf := by
        apply takeWhile_all
        intro a ha
        simpa using hnl a ha
      have hd : suf.dropWhile (fun d => d ≠ '\n') = [] := by
        apply dropWhile_all
        intro a ha
        simpa using hnl a ha
      simp only [replaceUpdateAll, List.length_cons, replaceUpdateFuel, hm, ht, hd,
        replaceUpdateFuel_nil, List.append_nil]

/-- C4 counterexample: for the raw line "/zendesk update private 42 hello
world" the regex substitution yields " hello world" — the whitespace separating
the id from the text lands in group 2, so the extracted body is not exactly
"hello world": one space is prepended. -/
theorem parse_comment_line_leading_space :
    parseCommentLine "private" "/zendesk update private 42 hello world" = " hello world"
    ∧ parseCommentLine "private" "/zendesk update private 42 hello world"
        ≠ "hello world" := by decide

/-- C4 (amended): for the raw line "/zendesk update private 42 hello world" and
every variant with extra whitespace before "update", before "private" and
before the id, the extracted comment body is exactly " hello world" — everything
after the matched digits, with the separating space and all internal whitespace
preserved and nothing else prepended or appended. -/
theorem update_private_comment_body (ws1 ws2 ws3 : List Char)
    (h1 : ∀ c ∈ ws1, goRegexSpace c = true)
    (h2 : ∀ c ∈ ws2, goRegexSpace c = true)
    (h3 : ∀ c ∈ ws3, goRegexSpace c = true) :
    parseCommentLine "private"
      (String.mk ("/zendesk".toList ++ (ws1 ++ ("update".toList ++ (ws2
        ++ ("private".toList ++ (ws3 ++ "42 hello world".toList)))))))
      = " hello world" := by
  have step1 := stripLit_append "/zendesk".toList
      (ws1 ++ ("update".toList ++ (ws2 ++ ("private".toList
        ++ (ws3 ++ "42 hello world".toList)))))
  have step2 : (ws1 ++ ("update".toList ++ (ws2 ++ ("private".toList
        ++ (ws3 ++ "42 hello world".toList))))).dropWhile goRegexSpace
      = "update".toList ++ (ws2 ++ ("private".toList
        ++ (ws3 ++ "42 hello world".toList))) := by
    rw [dropWhile_append_all goRegexSpace ws1 _ h1]
    exact dropWhile_cons_false goRegexSpace 'u'
      ("pdate".toList ++ (ws2 ++ ("private".toList
        ++ (ws3 ++ "42 hello world".toList)))) rfl
  have step3 := stripLit_append "update".toList
      (ws2 ++ ("private".toList ++ (ws3 ++ "42 hello world".toList)))
  have step4 : (ws2 ++ ("private".toList
        ++ (ws3 ++ "42 hello world".toList))).dropWhile goRegexSpace
      = "private".toList ++ (ws3 ++ "42 hello world".toList) := by
    rw [dropWhile_append_all goRegexSpace ws2 _ h2]
    exact dropWhile_cons_false goRegexSpace 'p'
      ("rivate".toList ++ (ws3 ++ "42 hello world".toList)) rfl
  have step5 := stripLit_append "private".toList (ws3 ++ "42 hello world".toList)
  have step6 : (ws3 ++ "42 hello world".toList).dropWhile goRegexSpace
      = "42 hello world".toList := by
    rw [dropWhile_append_all goRegexSpace ws3 _ h3]
    exact dropWhile_cons_false goRegexSpace '4' "2 hello world".toList rfl
  have hm : matchUpdateCmd "private".toList
      ("/zendesk".toList ++ (ws1 ++ ("update".toList ++ (ws2 ++ ("private".toList
        ++ (ws3 ++ "42 hello world".toList))))))
      = some " hello world".toList := by
    simp only [matchUpdateCmd, step1, step2, step3, step4, step5, step6]
    decide
  have hnl : ∀ c ∈ " hello world".toList, c ≠ '\n' := by decide
  have hall := replaceUpdate_single_line "private".toList _ _ hm hnl
  exact (congrArg String.mk hall).trans rfl

/-- Witness for C4 (amended): the canonical single-space spelling extracts
" hello world". -/
theorem update_private_comment_body_witness :
    parseCommentLine "private"
      (String.mk ("/zendesk".toList ++ ([' '] ++ ("update".toList ++ ([' ']
        ++ ("private".toList ++ ([' '] ++ "42 hello world".toList)))))))
      = " hello world" :=
  update_private_comment_body [' '] [' '] [' '] (by decide) (by decide) (by decide)

/-! ## `executeLatestPrivate` / `executeLatestPublic` comment scan -/

/-- The two pointer fields of `zendesk.TicketComment` the handlers read. A
comment returned by the API carries its visibility flag; `body = none` models a
nil `Body` pointer. -/
structure TicketComment where
  isPublic : Bool
  body : Option String
deriving DecidableEq, Repr

/-- `var lastPublicComment zendesk.TicketComment` — the Go zero value: every
pointer field nil (`false` stands for the never-read nil `Public` field). -/
def zeroTicketComment : TicketComment := ⟨false, none⟩

/-- The downward loop (`command.go` lines 334-340 and 379-385): scan from the
most recent comment to the oldest and stop at the first whose visibility flag
matches; when none matches, the variable keeps the zero value. -/
def lastCommentWith (want : Bool) (ticketComments : List TicketComment) : TicketComment :=
  (ticketComments.reverse.find? fun c => c.isPublic == want).getD zeroTicketComment

/-- The value posted by `p.postCommandResponse(commandArgs, *lastPublicComment.Body)`
(`command.go` line 387); `none` models dereferencing a nil `Body` pointer — a
runtime panic rather than a message. -/
def executeLatestPublicMessage (ticketComments : List TicketComment) : Option String :=
  (lastCommentWith true ticketComments).body

/-- Same for `executeLatestPrivate` (`command.go` line 342). -/
def executeLatestPrivateMessage (ticketComments : List TicketComment) : Option String :=
  (lastCommentWith false ticketComments).body

/-- C5 (behavior at the failing input): on a ticket whose comment list contains
zero public comments, `executeLatestPublic` dereferences the zero-valued
comment's nil `Body` pointer — a runtime panic, not a well-defined "no public
comment found" outcome (and symmetrically for `executeLatestPrivate`). With a
matching comment present, the most recent one's body is posted. -/
theorem latest_no_match_derefs_nil_body :
    executeLatestPublicMessage [⟨false, some "internal note"⟩] = none
    ∧ executeLatestPublicMessage [] = none
    ∧ executeLatestPrivateMessage [⟨true, some "public reply"⟩] = none
    ∧ executeLatestPublicMessage
        [⟨false, some "a"⟩, ⟨true, some "b"⟩, ⟨false, some "c"⟩] = some "b" := by
  decide

/-! ## `executeUpdatePrivate` / `executeUpdatePublic` argument handling -/

/-- First steps of the update handlers (`command.go` lines 218-226 and
261-268): `panicked` models `args[0]` on an empty slice (index out of range);
`parseErrorMsg a0` is `p.responsef(commandArgs, err.Error())` followed by an
empty response; `proceed` carries the parsed ticket id and the comment line the
handler will post. -/
inductive UpdateStep where
  | panicked
  | parseErrorMsg (arg : String)
  | proceed (ticketId : Int) (commentLine : String)
deriving DecidableEq, Repr

def executeUpdateArgStep (vis : String) (args : List String) (rawCommand : String) :
    UpdateStep :=
  match args with
  | [] => UpdateStep.panicked
  | a0 :: _ =>
    match goParseInt a0 with
    | none => UpdateStep.parseErrorMsg a0
    | some tid => UpdateStep.proceed tid (parseCommentLine vis rawCommand)

/-- C6 (behavior at the failing input): "/zendesk update private" routes to
`executeUpdatePrivate` with an empty argument list, whose first statement
indexes `args[0]` — an index-out-of-range runtime panic, fatal to the plugin
process, not a corrective message with a well-formed empty response (the update
handlers, unlike their siblings, have no arity check). Likewise for
update/public. A malformed non-numeric id, by contrast, does yield a posted
message. -/
theorem update_no_args_panics :
    executeCommandModel "/zendesk update private"
      = (CmdRender.dispatchedTo "update/private" [], none)
    ∧ executeUpdateArgStep "private" [] "/zendesk update private" = UpdateStep.panicked
    ∧ executeCommandModel "/zendesk update public"
      = (CmdRender.dispatchedTo "update/public" [], none)
    ∧ executeUpdateArgStep "public" [] "/zendesk update public" = UpdateStep.panicked
    ∧ executeUpdateArgStep "private" ["abc", "note"] "/zendesk update private abc note"
        = UpdateStep.parseErrorMsg "abc" := by decide

end ZendeskPlugin
